import Mathlib

/-!
# Verification of the multi-provider routing and training-dataset core

Shallow embedding of the core logic of the `llm-notebook-trainer`
repository: provider resolution and streaming from
`modelRoutingService.ts`, credential validation and listing from
`apiAuthService.ts`, and the training-pair store, session statistics and
dataset export pipeline from `trainingOrchestrator.ts`.

JavaScript strings are modelled as `List Char`; the database tables the
services read and write through Supabase are modelled as explicit lists
of records, and `throw` is modelled with `Except`.  Nullable numeric
columns (`quality_score`, `tokens_used`) are modelled as `Option Int`;
the average quality is computed in `ℚ`.
-/

namespace LNT

/-- JavaScript strings, modelled as lists of characters. -/
abbrev Str := List Char

/-- `needle` occurs as a contiguous substring of `hay`
(model of JavaScript `hay.includes(needle)`). -/
def containsSub (needle : Str) : Str → Bool
  | [] => needle.isEmpty
  | c :: t => needle.isPrefixOf (c :: t) || containsSub needle t

/-- The closed provider enumeration `ProviderType` of `apiAuthService.ts`. -/
inductive ProviderType where
  | openai
  | anthropic
  | google
  | azure
  | deepseek
deriving DecidableEq, Repr

/-- `getModelProvider` from `modelRoutingService.ts`: detect the provider
from the model identifier by prefix matching, with an `azure` substring
check and a final fallback to `openai`. -/
def getModelProvider (modelId : Str) : ProviderType :=
  if "gpt-".data.isPrefixOf modelId then .openai
  else if "claude-".data.isPrefixOf modelId then .anthropic
  else if "gemini-".data.isPrefixOf modelId || "palm-".data.isPrefixOf modelId then .google
  else if "deepseek-".data.isPrefixOf modelId then .deepseek
  else if containsSub "azure".data modelId then .azure
  else .openai

/-- Two incomparable lists cannot both be prefixes of the same list. -/
theorem not_prefix_of_prefix_incomp {p q l : Str} (h : q <+: l)
    (h1 : ¬ p <+: q) (h2 : ¬ q <+: p) : ¬ p <+: l :=
  fun hp => (List.prefix_or_prefix_of_prefix hp h).elim h1 h2

/-- C1: provider resolution returns `openai` for `gpt-` prefixes,
`anthropic` for `claude-`, `google` for `gemini-`/`palm-`, `deepseek` for
`deepseek-`, `azure` for identifiers containing `azure` that match none of
the prefixes, and defaults to `openai` on everything else; being a total
function into `ProviderType`, the result is always a well-typed provider
tag. -/
theorem getModelProvider_routes (m : Str) :
    ("gpt-".data <+: m → getModelProvider m = ProviderType.openai) ∧
    ("claude-".data <+: m → getModelProvider m = ProviderType.anthropic) ∧
    (("gemini-".data <+: m ∨ "palm-".data <+: m) →
      getModelProvider m = ProviderType.google) ∧
    ("deepseek-".data <+: m → getModelProvider m = ProviderType.deepseek) ∧
    (containsSub "azure".data m = true → ¬ "gpt-".data <+: m →
      ¬ "claude-".data <+: m → ¬ "gemini-".data <+: m → ¬ "palm-".data <+: m →
      ¬ "deepseek-".data <+: m → getModelProvider m = ProviderType.azure) ∧
    (¬ "gpt-".data <+: m → ¬ "claude-".data <+: m → ¬ "gemini-".data <+: m →
      ¬ "palm-".data <+: m → ¬ "deepseek-".data <+: m →
      containsSub "azure".data m = false → getModelProvider m = ProviderType.openai) := by
  refine ⟨?_, ?_, ?_, ?_, ?_, ?_⟩
  · intro h
    simp only [getModelProvider]
    rw [if_pos (List.isPrefixOf_iff_prefix.mpr h)]
  · intro h
    have hg : ¬ "gpt-".data <+: m := not_prefix_of_prefix_incomp h (by decide) (by decide)
    simp only [getModelProvider]
    rw [if_neg (fun hb => hg (List.isPrefixOf_iff_prefix.mp hb)),
      if_pos (List.isPrefixOf_iff_prefix.mpr h)]
  · intro h
    have hg : ¬ "gpt-".data <+: m := by
      rcases h with h | h
      · exact not_prefix_of_prefix_incomp h (by decide) (by decide)
      · exact not_prefix_of_prefix_incomp h (by decide) (by decide)
    have hc : ¬ "claude-".data <+: m := by
      rcases h with h | h
      · exact not_prefix_of_prefix_incomp h (by decide) (by decide)
      · exact not_prefix_of_prefix_incomp h (by decide) (by decide)
    simp only [getModelProvider]
    rw [if_neg (fun hb => hg (List.isPrefixOf_iff_prefix.mp hb)),
      if_neg (fun hb => hc (List.isPrefixOf_iff_prefix.mp hb)), if_pos]
    simp only [Bool.or_eq_true]
    rcases h with h | h
    · exact Or.inl (List.isPrefixOf_iff_prefix.mpr h)
    · exact Or.inr (List.isPrefixOf_iff_prefix.mpr h)
  · intro h
    have hg : ¬ "gpt-".data <+: m := not_prefix_of_prefix_incomp h (by decide) (by decide)
    have hc : ¬ "claude-".data <+: m := not_prefix_of_prefix_incomp h (by decide) (by decide)
    have he : ¬ "gemini-".data <+: m := not_prefix_of_prefix_incomp h (by decide) (by decide)
    have hp : ¬ "palm-".data <+: m := not_prefix_of_prefix_incomp h (by decide) (by decide)
    simp only [getModelProvider]
    rw [if_neg (fun hb => hg (List.isPrefixOf_iff_prefix.mp hb)),
      if_neg (fun hb => hc (List.isPrefixOf_iff_prefix.mp hb)),
      if_neg, if_pos (List.isPrefixOf_iff_prefix.mpr h)]
    simp only [Bool.or_eq_true, not_or]
    exact ⟨fun hb => he (List.isPrefixOf_iff_prefix.mp hb),
      fun hb => hp (List.isPrefixOf_iff_prefix.mp hb)⟩
  · intro ha hg hc he hp hd
    simp only [getModelProvider]
    rw [if_neg (fun hb => hg (List.isPrefixOf_iff_prefix.mp hb)),
      if_neg (fun hb => hc (List.isPrefixOf_iff_prefix.mp hb)),
      if_neg, if_neg (fun hb => hd (List.isPrefixOf_iff_prefix.mp hb)), if_pos ha]
    simp only [Bool.or_eq_true, not_or]
    exact ⟨fun hb => he (List.isPrefixOf_iff_prefix.mp hb),
      fun hb => hp (List.isPrefixOf_iff_prefix.mp hb)⟩
  · intro hg hc he hp hd ha
    simp only [getModelProvider]
    rw [if_neg (fun hb => hg (List.isPrefixOf_iff_prefix.mp hb)),
      if_neg (fun hb => hc (List.isPrefixOf_iff_prefix.mp hb)),
      if_neg, if_neg (fun hb => hd (List.isPrefixOf_iff_prefix.mp hb)), if_neg]
    · simp [ha]
    · simp only [Bool.or_eq_true, not_or]
      exact ⟨fun hb => he (List.isPrefixOf_iff_prefix.mp hb),
        fun hb => hp (List.isPrefixOf_iff_prefix.mp hb)⟩

/-- Witness for C1: concrete routings through each clause of the theorem. -/
theorem getModelProvider_routes_witness :
    getModelProvider "gpt-4-turbo".data = ProviderType.openai ∧
    getModelProvider "claude-3-opus".data = ProviderType.anthropic ∧
    getModelProvider "gemini-pro".data = ProviderType.google ∧
    getModelProvider "deepseek-coder".data = ProviderType.deepseek ∧
    getModelProvider "my-azure-model".data = ProviderType.azure ∧
    getModelProvider "llama-3".data = ProviderType.openai :=
  ⟨(getModelProvider_routes _).1 (by decide),
   (getModelProvider_routes _).2.1 (by decide),
   (getModelProvider_routes _).2.2.1 (Or.inl (by decide)),
   (getModelProvider_routes _).2.2.2.1 (by decide),
   (getModelProvider_routes _).2.2.2.2.1 (by decide) (by decide) (by decide) (by decide)
     (by decide) (by decide),
   (getModelProvider_routes _).2.2.2.2.2 (by decide) (by decide) (by decide) (by decide)
     (by decide) (by decide)⟩

/-! ## Training pair store (`trainingOrchestrator.ts`) -/

/-- A row of the `training_results` table (`TrainingResult` in
`database.ts`); `quality_score` is a nullable numeric column and
`tokens_used` a nullable integer column, both modelled as `Option Int`. -/
structure TrainingResultRec where
  id : Str
  session_id : Str
  input_text : Str
  output_text : Str
  quality_score : Option Int
  tokens_used : Option Int
  created_at : Str
deriving DecidableEq, Repr

/-- The `TrainingPair` interface of `trainingOrchestrator.ts`: the
caller-supplied prompt/response pair with its quality score. -/
structure TrainingPair where
  prompt : Str
  response : Str
  qualityScore : Int
  tokensUsed : Option Int
deriving DecidableEq, Repr

/-- The `training_results` table, in `created_at` ascending order (the
order `trainingService.getResults` returns). -/
abbrev TrainingDb := List TrainingResultRec

/-- `getSessionPairs` from `trainingOrchestrator.ts`:
`trainingService.getResults(sessionId)`, i.e. the rows of
`training_results` whose `session_id` matches. -/
def getSessionPairs (db : TrainingDb) (sessionId : Str) : List TrainingResultRec :=
  db.filter (fun r => r.session_id == sessionId)

/-- `addTrainingPair` from `trainingOrchestrator.ts`: validate the quality
score, then insert the row via `trainingService.createResult`.  The
database-generated `id` and `created_at` are passed in as `newId` and
`now`.  Returns the table after the call together with the thrown error or
created row. -/
def addTrainingPair (db : TrainingDb) (sessionId : Str) (pair : TrainingPair)
    (newId now : Str) : TrainingDb × Except Str TrainingResultRec :=
  if pair.qualityScore < 1 ∨ pair.qualityScore > 5 then
    (db, .error "Quality score must be between 1 and 5".data)
  else
    let r : TrainingResultRec :=
      { id := newId
        session_id := sessionId
        input_text := pair.prompt
        output_text := pair.response
        quality_score := some pair.qualityScore
        tokens_used := some (pair.tokensUsed.getD 0)
        created_at := now }
    (db ++ [r], .ok r)

/-- `updateQualityScore` from `trainingOrchestrator.ts`: validate the new
score, then `update training_results set quality_score where id =
resultId`. -/
def updateQualityScore (db : TrainingDb) (resultId : Str) (newScore : Int) :
    TrainingDb × Except Str Unit :=
  if newScore < 1 ∨ newScore > 5 then
    (db, .error "Quality score must be between 1 and 5".data)
  else
    (db.map (fun r => if r.id = resultId then { r with quality_score := some newScore } else r),
      .ok ())

/-- The `SessionStats` interface of `trainingOrchestrator.ts`. -/
structure SessionStats where
  totalPairs : Nat
  averageQuality : ℚ
  totalTokens : Int
  highQualityPairs : Nat
  readyForTraining : Bool
deriving DecidableEq, Repr

/-- `getSessionStats` from `trainingOrchestrator.ts`: aggregate the
session's pairs; `p.quality_score || 0` and `p.tokens_used || 0` are
`Option.getD 0`. -/
def getSessionStats (db : TrainingDb) (sessionId : Str) : SessionStats :=
  let pairs := getSessionPairs db sessionId
  let totalPairs := pairs.length
  let averageQuality : ℚ :=
    if totalPairs > 0 then
      ((pairs.foldl (fun sum p => sum + p.quality_score.getD 0) 0 : Int) : ℚ) / totalPairs
    else 0
  let totalTokens : Int := pairs.foldl (fun sum p => sum + p.tokens_used.getD 0) 0
  let highQualityPairs := (pairs.filter (fun p => p.quality_score.getD 0 ≥ 4)).length
  { totalPairs := totalPairs
    averageQuality := averageQuality
    totalTokens := totalTokens
    highQualityPairs := highQualityPairs
    readyForTraining := highQualityPairs ≥ 10 }

/-- C2: `addTrainingPair` and `updateQualityScore` succeed exactly when
the quality score lies in `[1, 5]`; on an out-of-range score both raise
the `ValidationError` "Quality score must be between 1 and 5" and leave
the stored table unchanged (the validation precedes any persistence
call). -/
theorem quality_score_validation (db : TrainingDb) (sessionId : Str)
    (pair : TrainingPair) (newId now resultId : Str) (s : Int) :
    ((addTrainingPair db sessionId pair newId now).2.isOk = true ↔
      1 ≤ pair.qualityScore ∧ pair.qualityScore ≤ 5) ∧
    ((updateQualityScore db resultId s).2.isOk = true ↔ 1 ≤ s ∧ s ≤ 5) ∧
    (¬ (1 ≤ pair.qualityScore ∧ pair.qualityScore ≤ 5) →
      addTrainingPair db sessionId pair newId now =
        (db, .error "Quality score must be between 1 and 5".data)) ∧
    (¬ (1 ≤ s ∧ s ≤ 5) →
      updateQualityScore db resultId s =
        (db, .error "Quality score must be between 1 and 5".data)) := by
  refine ⟨?_, ?_, ?_, ?_⟩
  · by_cases h : pair.qualityScore < 1 ∨ pair.qualityScore > 5
    · simp [addTrainingPair, h, Except.isOk, Except.toBool]
      omega
    · simp [addTrainingPair, h, Except.isOk, Except.toBool]
      omega
  · by_cases h : s < 1 ∨ s > 5
    · simp [updateQualityScore, h, Except.isOk, Except.toBool]
      omega
    · simp [updateQualityScore, h, Except.isOk, Except.toBool]
      omega
  · intro h
    have h' : pair.qualityScore < 1 ∨ pair.qualityScore > 5 := by omega
    simp [addTrainingPair, h']
  · intro h
    have h' : s < 1 ∨ s > 5 := by omega
    simp [updateQualityScore, h']

/-- Witness for C2: a score of 7 is rejected by both operations with the
table left unchanged, and a score of 7 fails the range check. -/
theorem quality_score_validation_witness :
    ¬ (1 ≤ (7 : Int) ∧ (7 : Int) ≤ 5) ∧
    addTrainingPair [] "s1".data ⟨"p".data, "r".data, 7, none⟩ "id1".data "t1".data =
      ([], .error "Quality score must be between 1 and 5".data) ∧
    updateQualityScore [] "id1".data 7 =
      ([], .error "Quality score must be between 1 and 5".data) :=
  ⟨by decide,
   (quality_score_validation [] "s1".data ⟨"p".data, "r".data, 7, none⟩ "id1".data
      "t1".data "id1".data 7).2.2.1 (by decide),
   (quality_score_validation [] "s1".data ⟨"p".data, "r".data, 7, none⟩ "id1".data
      "t1".data "id1".data 7).2.2.2 (by decide)⟩

/-- C3: `readyForTraining` holds exactly when at least 10 stored pairs of
the session have a quality score (absent treated as 0) of at least 4, and
`highQualityPairs` is exactly that count. -/
theorem readyForTraining_iff (db : TrainingDb) (sessionId : Str) :
    ((getSessionStats db sessionId).readyForTraining = true ↔
      10 ≤ (getSessionPairs db sessionId).countP (fun p => 4 ≤ p.quality_score.getD 0)) ∧
    (getSessionStats db sessionId).highQualityPairs =
      (getSessionPairs db sessionId).countP (fun p => 4 ≤ p.quality_score.getD 0) := by
  constructor
  · simp [getSessionStats, List.countP_eq_length_filter, ge_iff_le]
  · simp [getSessionStats, List.countP_eq_length_filter, ge_iff_le]

/-- Sum of the quality scores (absent as 0), as a list sum. -/
def qualityScoreSum (pairs : List TrainingResultRec) : Int :=
  (pairs.map (fun p => p.quality_score.getD 0)).sum

theorem foldl_add_quality (pairs : List TrainingResultRec) (init : Int) :
    pairs.foldl (fun sum p => sum + p.quality_score.getD 0) init =
      init + qualityScoreSum pairs := by
  induction pairs generalizing init with
  | nil => simp [qualityScoreSum]
  | cons p t ih =>
    rw [List.foldl_cons, ih]
    simp only [qualityScoreSum, List.map_cons, List.sum_cons]
    ring

/-- C4: `averageQuality` is the sum of the stored quality scores (a `null`
score counted as 0) divided by the number of pairs, and 0 when the session
has no pairs — the division is guarded by the pair count. -/
theorem averageQuality_eq (db : TrainingDb) (sessionId : Str) :
    (getSessionStats db sessionId).averageQuality =
      if getSessionPairs db sessionId = [] then 0
      else (qualityScoreSum (getSessionPairs db sessionId) : ℚ) /
        ((getSessionPairs db sessionId).length : ℚ) := by
  simp only [getSessionStats, foldl_add_quality, zero_add]
  by_cases h : getSessionPairs db sessionId = []
  · simp [h]
  · have : 0 < (getSessionPairs db sessionId).length := List.length_pos.mpr h
    simp [h, this]

/-! ## Dataset export (`trainingOrchestrator.ts`) -/

/-- Lower-case hexadecimal digit, as produced by JavaScript's
`JSON.stringify` unicode escapes. -/
def hexDigitChar (n : Nat) : Char :=
  if n < 10 then Char.ofNat ('0'.toNat + n) else Char.ofNat ('a'.toNat + (n - 10))

/-- The escape `JSON.stringify` applies to one character of a string:
quote, backslash and the named control escapes get two-character escapes,
the remaining control characters a `\u00xx` escape, and every other
character stands for itself. -/
def escChar (c : Char) : Str :=
  if c = '"' then ['\\', '"']
  else if c = '\\' then ['\\', '\\']
  else if c = '\x08' then ['\\', 'b']
  else if c = '\x0c' then ['\\', 'f']
  else if c = '\n' then ['\\', 'n']
  else if c = '\x0d' then ['\\', 'r']
  else if c = '\t' then ['\\', 't']
  else if c.toNat < 32 then
    ['\\', 'u', '0', '0', hexDigitChar (c.toNat / 16), hexDigitChar (c.toNat % 16)]
  else [c]

/-- `JSON.stringify` escaping of a whole string body. -/
def escStr (s : Str) : Str := (s.map escChar).flatten

/-- A JSON string literal: escaped body between double quotes. -/
def quoteJson (s : Str) : Str := '"' :: (escStr s ++ ['"'])

/-- A JSON integer-or-null, as `JSON.stringify` renders the nullable
numeric columns. -/
def jsonNumOrNull : Option Int → Str
  | none => "null".data
  | some n => (toString n).data

/-- One line of `exportOpenAIFormat`:
`JSON.stringify({messages: [{role: 'user', content: input},
{role: 'assistant', content: output}]})`. -/
def chatLine (input output : Str) : Str :=
  "\x7b\"messages\":[\x7b\"role\":\"user\",\"content\":".data ++ quoteJson input ++
  "\x7d,\x7b\"role\":\"assistant\",\"content\":".data ++ quoteJson output ++ "\x7d]\x7d".data

/-- `exportOpenAIFormat` from `trainingOrchestrator.ts`: one chat-pair
JSON object per pair, joined with `'\n'`. -/
def exportOpenAIFormat (pairs : List TrainingResultRec) : Str :=
  ['\n'].intercalate (pairs.map (fun p => chatLine p.input_text p.output_text))

/-- One entry of `exportAnthropicFormat`'s
`JSON.stringify(examples, null, 2)` output. -/
def anthropicEntry (p : TrainingResultRec) : Str :=
  "  \x7b\n    \"input\": ".data ++ quoteJson p.input_text ++
  ",\n    \"output\": ".data ++ quoteJson p.output_text ++
  ",\n    \"quality\": ".data ++ jsonNumOrNull p.quality_score ++ "\n  \x7d".data

/-- `exportAnthropicFormat` from `trainingOrchestrator.ts`: the pairs as a
pretty-printed JSON array of `{input, output, quality}`. -/
def exportAnthropicFormat (pairs : List TrainingResultRec) : Str :=
  if pairs = [] then "[]".data
  else "[\n".data ++ (",\n".data).intercalate (pairs.map anthropicEntry) ++ "\n]".data

/-- Double embedded double quotes: `replace(/"/g, '""')` of
`exportCSVFormat`. -/
def csvEscape (s : Str) : Str :=
  (s.map (fun c => if c = '"' then ['"', '"'] else [c])).flatten

/-- One data row of `exportCSVFormat` (including its trailing newline). -/
def csvLine (p : TrainingResultRec) : Str :=
  '"' :: csvEscape p.input_text ++ "\",\"".data ++ csvEscape p.output_text ++
  "\",".data ++ (toString (p.quality_score.getD 0)).data ++ ",".data ++
  (toString (p.tokens_used.getD 0)).data ++ "\n".data

/-- `exportCSVFormat` from `trainingOrchestrator.ts`: header row followed
by one escaped row per pair. -/
def exportCSVFormat (pairs : List TrainingResultRec) : Str :=
  "prompt,response,quality_score,tokens_used\n".data ++ (pairs.map csvLine).flatten

/-- One entry of `exportGenericFormat`'s
`JSON.stringify(data, null, 2)` output. -/
def genericEntry (p : TrainingResultRec) : Str :=
  "  \x7b\n    \"prompt\": ".data ++ quoteJson p.input_text ++
  ",\n    \"response\": ".data ++ quoteJson p.output_text ++
  ",\n    \"qualityScore\": ".data ++ jsonNumOrNull p.quality_score ++
  ",\n    \"tokensUsed\": ".data ++ jsonNumOrNull p.tokens_used ++
  ",\n    \"createdAt\": ".data ++ quoteJson p.created_at ++ "\n  \x7d".data

/-- `exportGenericFormat` from `trainingOrchestrator.ts`: the pairs as a
pretty-printed JSON array of
`{prompt, response, qualityScore, tokensUsed, createdAt}`. -/
def exportGenericFormat (pairs : List TrainingResultRec) : Str :=
  if pairs = [] then "[]".data
  else "[\n".data ++ (",\n".data).intercalate (pairs.map genericEntry) ++ "\n]".data

/-- The `ExportOptions` interface of `trainingOrchestrator.ts`.  At
runtime the `format` field is an arbitrary string (the TypeScript union is
erased), so it is modelled as `Str`. -/
structure ExportOptions where
  format : Str
  minQuality : Option Int
  includeMetadata : Option Bool
deriving DecidableEq, Repr

/-- The quality filter of `exportTrainingData`:
`options.minQuality ? pairs.filter((p) => (p.quality_score || 0) >=
options.minQuality!) : pairs`.  A provided `minQuality` of `0` is falsy in
JavaScript, so it disables the filter. -/
def exportFiltered (pairs : List TrainingResultRec) : Option Int → List TrainingResultRec
  | some q => if q ≠ 0 then pairs.filter (fun p => p.quality_score.getD 0 ≥ q) else pairs
  | none => pairs

/-- The `switch (options.format)` of `exportTrainingData`; the `'generic'`
case and the `default` case share the generic encoder. -/
def formatEncode (format : Str) (pairs : List TrainingResultRec) : Str :=
  if format = "openai".data then exportOpenAIFormat pairs
  else if format = "anthropic".data then exportAnthropicFormat pairs
  else if format = "csv".data then exportCSVFormat pairs
  else exportGenericFormat pairs

/-- `exportTrainingData` from `trainingOrchestrator.ts`: fetch the
session's pairs, filter by quality when a (truthy) `minQuality` is given,
and encode per format. -/
def exportTrainingData (db : TrainingDb) (sessionId : Str) (options : ExportOptions) : Str :=
  formatEncode options.format (exportFiltered (getSessionPairs db sessionId) options.minQuality)

/-- A stored pair whose quality score was never rated. -/
def unratedRec : TrainingResultRec :=
  { id := "id0".data
    session_id := "s1".data
    input_text := "a".data
    output_text := "b".data
    quality_score := none
    tokens_used := none
    created_at := "t0".data }

/-- Counterexample to C5 as stated: with the provided threshold
`minQuality = 0` (falsy in JavaScript, so the filter is skipped) the
export of a session holding one unrated pair still contains that pair,
although the claim requires every pair with an absent score to be
dropped whenever a threshold is provided. -/
theorem export_minQuality_filter_cex :
    unratedRec.quality_score = none ∧
    exportTrainingData [unratedRec] "s1".data ⟨"generic".data, some 0, none⟩ =
      exportGenericFormat [unratedRec] ∧
    exportGenericFormat [unratedRec] ≠ exportGenericFormat [] := by
  refine ⟨rfl, rfl, by decide⟩

/-- C5 (amended): for every provided nonzero `minQuality`, the export
encodes exactly the pairs whose quality score — with an absent score
treated as `0` — is at least `minQuality`; a provided `minQuality` of `0`
is falsy, disables the filter and keeps every pair, including those with
an absent score. -/
theorem export_minQuality_filter (db : TrainingDb) (sessionId : Str) (fmt : Str)
    (im : Option Bool) (q : Int) (hq : q ≠ 0) :
    exportTrainingData db sessionId ⟨fmt, some q, im⟩ =
      formatEncode fmt ((getSessionPairs db sessionId).filter
        (fun p => q ≤ p.quality_score.getD 0)) ∧
    exportTrainingData db sessionId ⟨fmt, some 0, im⟩ =
      formatEncode fmt (getSessionPairs db sessionId) := by
  constructor
  · simp [exportTrainingData, exportFiltered, hq, ge_iff_le]
  · simp [exportTrainingData, exportFiltered]

/-- A session pair with quality score `n`. -/
def scoredRec (n : Int) (id : Str) : TrainingResultRec :=
  { id := id
    session_id := "s1".data
    input_text := "in".data ++ id
    output_text := "out".data ++ id
    quality_score := some n
    tokens_used := some 1
    created_at := id }

/-- The spec scenario: three pairs with scores `[5, 2, 4]`. -/
def scenarioDb : TrainingDb :=
  [scoredRec 5 "p1".data, scoredRec 2 "p2".data, scoredRec 4 "p3".data]

/-- Witness for C5 (amended): exporting the `[5, 2, 4]` scenario at
`minQuality = 3` encodes exactly the pairs scored 5 and 4. -/
theorem export_minQuality_filter_witness :
    exportTrainingData scenarioDb "s1".data ⟨"openai".data, some 3, none⟩ =
      formatEncode "openai".data [scoredRec 5 "p1".data, scoredRec 4 "p3".data] :=
  ((export_minQuality_filter scenarioDb "s1".data "openai".data none 3 (by decide)).1).trans
    (congrArg (formatEncode "openai".data) (by decide))

/-- C10: for any `format` string outside the enumerated set, the switch
falls through to the default branch and `exportTrainingData` returns the
generic pretty-printed JSON encoding of the filtered pairs — identical to
the output for format `'generic'`. -/
theorem export_unknown_format (db : TrainingDb) (sessionId : Str)
    (opts : ExportOptions) (h1 : opts.format ≠ "openai".data)
    (h2 : opts.format ≠ "anthropic".data) (h3 : opts.format ≠ "csv".data)
    (h4 : opts.format ≠ "generic".data) :
    exportTrainingData db sessionId opts =
      exportGenericFormat (exportFiltered (getSessionPairs db sessionId) opts.minQuality) ∧
    exportTrainingData db sessionId opts =
      exportTrainingData db sessionId ⟨"generic".data, opts.minQuality, opts.includeMetadata⟩ := by
  obtain ⟨f, mq, im⟩ := opts
  simp only at h1 h2 h3 h4
  constructor
  · simp [exportTrainingData, formatEncode, h1, h2, h3]
  · simp [exportTrainingData, formatEncode, h1, h2, h3]

/-- Witness for C10: exporting with the unknown format `'xml'` yields the
generic encoding. -/
theorem export_unknown_format_witness :
    exportTrainingData scenarioDb "s1".data ⟨"xml".data, none, none⟩ =
      exportGenericFormat (exportFiltered (getSessionPairs scenarioDb "s1".data) none) :=
  (export_unknown_format scenarioDb "s1".data ⟨"xml".data, none, none⟩
    (by decide) (by decide) (by decide) (by decide)).1

/-! ## Credential store (`apiAuthService.ts`) -/

/-- A row of the `api_keys` table (`ApiKey` in `database.ts`). -/
structure ApiKeyRec where
  id : Str
  user_id : Str
  provider : ProviderType
  api_key : Str
  is_active : Bool
  created_at : Str
  updated_at : Str
deriving DecidableEq, Repr

/-- The `api_keys` table, scoped by row-level security to one user, so at
most one row per provider (`onConflict: 'user_id,provider'`). -/
abbrev ApiKeyDb := List ApiKeyRec

/-- `validateApiKeyFormat` from `apiAuthService.ts`: per-provider prefix
or length rule; returns `true` or throws a descriptive error. -/
def validateApiKeyFormat (provider : ProviderType) (apiKey : Str) : Except Str Bool :=
  match provider with
  | .openai =>
    if "sk-".data.isPrefixOf apiKey then .ok true
    else .error "OpenAI API keys must start with \"sk-\"".data
  | .anthropic =>
    if "sk-ant-".data.isPrefixOf apiKey then .ok true
    else .error "Anthropic API keys must start with \"sk-ant-\"".data
  | .google =>
    if "AIza".data.isPrefixOf apiKey then .ok true
    else .error "Google API keys must start with \"AIza\"".data
  | .deepseek =>
    if "ds-".data.isPrefixOf apiKey then .ok true
    else .error "DeepSeek API keys must start with \"ds-\"".data
  | .azure =>
    if apiKey.length < 10 then .error "Azure API key appears to be too short".data
    else .ok true

/-- `apiKeyService.upsert` keyed on `(user_id, provider)`: overwrite the
provider's row if present (setting it active and refreshing
`updated_at`), else append a new row.  `newId` and `now` stand for the
database-generated id and timestamp. -/
def upsertApiKey (db : ApiKeyDb) (provider : ProviderType) (apiKey : Str)
    (uid newId now : Str) : ApiKeyDb :=
  if db.any (fun r => r.provider == provider) then
    db.map (fun r =>
      if r.provider = provider then
        { r with user_id := uid, api_key := apiKey, is_active := true, updated_at := now }
      else r)
  else
    db ++ [{ id := newId, user_id := uid, provider := provider, api_key := apiKey,
             is_active := true, created_at := now, updated_at := now }]

/-- `saveApiKey` from `apiAuthService.ts`: reject an empty or
all-whitespace secret, validate the provider's format rule, and only then
upsert the credential with `is_active = true`.  Returns the table after
the call together with the thrown error, if any. -/
def saveApiKey (db : ApiKeyDb) (provider : ProviderType) (apiKey : Str)
    (uid newId now : Str) : ApiKeyDb × Except Str Unit :=
  if apiKey.isEmpty ∨ apiKey.all (·.isWhitespace) then
    (db, .error "API key cannot be empty".data)
  else
    match validateApiKeyFormat provider apiKey with
    | .error e => (db, .error e)
    | .ok _ => (upsertApiKey db provider apiKey uid newId now, .ok ())

/-- `getApiKey` from `apiAuthService.ts`:
`apiKeyService.getByProvider` selects the active row for the provider,
and the service returns `null` unless the record exists and is active. -/
def getApiKey (db : ApiKeyDb) (provider : ProviderType) : Option Str :=
  match db.find? (fun r => r.provider == provider && r.is_active) with
  | none => none
  | some r => if r.is_active then some r.api_key else none

/-- The per-provider format rule of the claim, as the source checks it:
`openai` keys start with `sk-`, `anthropic` with `sk-ant-`, `google` with
`AIza`, `deepseek` with `ds-`, and `azure` keys have length at least
10. -/
def apiKeyFormatOk (provider : ProviderType) (apiKey : Str) : Bool :=
  match provider with
  | .openai => "sk-".data.isPrefixOf apiKey
  | .anthropic => "sk-ant-".data.isPrefixOf apiKey
  | .google => "AIza".data.isPrefixOf apiKey
  | .deepseek => "ds-".data.isPrefixOf apiKey
  | .azure => decide (10 ≤ apiKey.length)

theorem validateApiKeyFormat_error_of_bad (provider : ProviderType) (apiKey : Str)
    (h : apiKeyFormatOk provider apiKey = false) :
    ∃ e, validateApiKeyFormat provider apiKey = .error e := by
  cases provider <;> simp only [apiKeyFormatOk] at h <;>
    simp only [validateApiKeyFormat]
  · exact ⟨_, by rw [if_neg (by simp [h])]⟩
  · exact ⟨_, by rw [if_neg (by simp [h])]⟩
  · exact ⟨_, by rw [if_neg (by simp [h])]⟩
  · have hl : apiKey.length < 10 := by
      rcases Nat.lt_or_ge apiKey.length 10 with h' | h'
      · exact h'
      · simp [decide_eq_true h'] at h
    exact ⟨_, by rw [if_pos hl]⟩
  · exact ⟨_, by rw [if_neg (by simp [h])]⟩

/-- C7: a secret failing the provider's format rule makes `saveApiKey`
throw before any persistence call: the stored table is unchanged and
`getApiKey` returns the same value after the rejected save as before
it. -/
theorem saveApiKey_rejected_no_mutation (db : ApiKeyDb) (provider : ProviderType)
    (apiKey : Str) (uid newId now : Str)
    (h : apiKeyFormatOk provider apiKey = false) :
    (saveApiKey db provider apiKey uid newId now).1 = db ∧
    (saveApiKey db provider apiKey uid newId now).2.isOk = false ∧
    getApiKey (saveApiKey db provider apiKey uid newId now).1 provider =
      getApiKey db provider := by
  obtain ⟨e, hv⟩ := validateApiKeyFormat_error_of_bad provider apiKey h
  have h12 : saveApiKey db provider apiKey uid newId now =
        (db, .error "API key cannot be empty".data) ∨
      saveApiKey db provider apiKey uid newId now = (db, .error e) := by
    unfold saveApiKey
    split
    · exact Or.inl rfl
    · rw [hv]
      exact Or.inr rfl
  rcases h12 with h' | h' <;> rw [h'] <;> exact ⟨rfl, rfl, rfl⟩

/-- A one-row credential store holding an active OpenAI key. -/
def apiDb0 : ApiKeyDb :=
  [{ id := "k1".data, user_id := "u1".data, provider := .openai,
     api_key := "sk-old123".data, is_active := true,
     created_at := "t0".data, updated_at := "t0".data }]

/-- Witness for C7: saving the malformed OpenAI secret `"abc"` over an
existing key fails, leaves the store unchanged, and leaves `getApiKey`
unchanged. -/
theorem saveApiKey_rejected_no_mutation_witness :
    (saveApiKey apiDb0 .openai "abc".data "u1".data "k2".data "t1".data).1 = apiDb0 ∧
    (saveApiKey apiDb0 .openai "abc".data "u1".data "k2".data "t1".data).2.isOk = false ∧
    getApiKey (saveApiKey apiDb0 .openai "abc".data "u1".data "k2".data "t1".data).1 .openai =
      getApiKey apiDb0 .openai :=
  saveApiKey_rejected_no_mutation apiDb0 .openai "abc".data "u1".data "k2".data
    "t1".data (by decide)

/-- The `ProviderStatus` record returned by `getAllApiKeys`: provider tag,
key-present flag, active flag and last-updated timestamp — no secret
field. -/
structure ProviderStatus where
  provider : ProviderType
  hasKey : Bool
  isActive : Bool
  lastUpdated : Str
deriving DecidableEq, Repr

/-- `getAllApiKeys` from `apiAuthService.ts`: map each stored credential
row to its status record. -/
def getAllApiKeys (db : ApiKeyDb) : List ProviderStatus :=
  db.map (fun k => { provider := k.provider, hasKey := true,
                     isActive := k.is_active, lastUpdated := k.updated_at })

/-- C8: `getAllApiKeys` never depends on the secret values: two credential
stores that agree row-by-row on provider, active flag and update timestamp
— and may differ arbitrarily in their secret strings (and ids/owners) —
produce identical status lists, and each returned record carries only the
four status fields of `ProviderStatus`. -/
theorem getAllApiKeys_secret_independent (db1 db2 : ApiKeyDb)
    (h : List.Forall₂ (fun a b =>
      a.provider = b.provider ∧ a.is_active = b.is_active ∧ a.updated_at = b.updated_at)
      db1 db2) :
    getAllApiKeys db1 = getAllApiKeys db2 := by
  induction h with
  | nil => rfl
  | cons hab _ ih =>
    obtain ⟨h1, h2, h3⟩ := hab
    simp only [getAllApiKeys, List.map_cons] at ih ⊢
    rw [h1, h2, h3, ih]

/-- Witness for C8: two stores differing only in the secret string produce
the same status list. -/
theorem getAllApiKeys_secret_independent_witness :
    getAllApiKeys apiDb0 =
      getAllApiKeys [{ id := "k1".data, user_id := "u1".data, provider := .openai,
                       api_key := "sk-other-secret".data, is_active := true,
                       created_at := "t0".data, updated_at := "t0".data }] :=
  getAllApiKeys_secret_independent _ _
    (List.Forall₂.cons (by exact ⟨rfl, rfl, rfl⟩) List.Forall₂.nil)

/-! ## Streaming (`streamContent` in `modelRoutingService.ts`) -/

/-- The `StreamChunk` interface of `modelRoutingService.ts`. -/
structure StreamChunk where
  content : Str
  isComplete : Bool
deriving DecidableEq, Repr

/-- The loop body of `streamContent`: starting from the accumulated text
`cur`, append each word plus a space and emit a chunk, marking the chunk
of the last word complete (`i === words.length - 1`). -/
def streamChunksGo (cur : Str) : List Str → List StreamChunk
  | [] => []
  | w :: rest =>
    ⟨cur ++ w ++ [' '], rest.isEmpty⟩ :: streamChunksGo (cur ++ w ++ [' ']) rest

/-- The chunk sequence `streamContent` delivers to `onChunk` once the
underlying `generateContent` call has succeeded with `content` as its
generated text: the loop over `response.content.split(' ')`. -/
def streamChunks (content : Str) : List StreamChunk :=
  streamChunksGo [] (content.splitOn ' ')

/-- The contents the spec prescribes: the i-th chunk carries the
cumulative text so far, i.e. the concatenation of the first `i + 1` words
each followed by a space. -/
def specCumulativeContents (ws : List Str) : List Str :=
  (List.range ws.length).map (fun i => ((ws.take (i + 1)).map (fun w => w ++ [' '])).flatten)

theorem streamChunksGo_contents (cur : Str) (ws : List Str) :
    (streamChunksGo cur ws).map (·.content) =
      (List.range ws.length).map
        (fun i => cur ++ ((ws.take (i + 1)).map (fun w => w ++ [' '])).flatten) := by
  induction ws generalizing cur with
  | nil => simp [streamChunksGo]
  | cons w rest ih =>
    simp only [streamChunksGo, List.map_cons, List.length_cons,
      List.range_succ_eq_map, List.map_map]
    congr 1
    · simp [List.append_assoc]
    · rw [ih (cur ++ w ++ [' '])]
      refine List.map_congr_left (fun i _ => ?_)
      simp [List.take_succ_cons, List.append_assoc, Function.comp]

theorem streamChunksGo_chain (cur : Str) (ws : List Str) :
    List.Chain' (fun a b => a.content <+: b.content) (streamChunksGo cur ws) := by
  induction ws generalizing cur with
  | nil => simp [streamChunksGo]
  | cons w rest ih =>
    rw [show streamChunksGo cur (w :: rest) =
      ⟨cur ++ w ++ [' '], rest.isEmpty⟩ :: streamChunksGo (cur ++ w ++ [' ']) rest from rfl,
      List.chain'_cons']
    refine ⟨?_, ih _⟩
    intro h hh
    cases rest with
    | nil => simp [streamChunksGo] at hh
    | cons w2 rest2 =>
      rw [show streamChunksGo (cur ++ w ++ [' ']) (w2 :: rest2) =
        ⟨cur ++ w ++ [' '] ++ w2 ++ [' '], rest2.isEmpty⟩ ::
          streamChunksGo (cur ++ w ++ [' '] ++ w2 ++ [' ']) rest2 from rfl,
        List.head?_cons, Option.mem_def, Option.some.injEq] at hh
      subst hh
      exact ⟨w2 ++ [' '], by simp [List.append_assoc]⟩

theorem streamChunksGo_one_complete (cur : Str) (ws : List Str) (h : ws ≠ []) :
    (streamChunksGo cur ws).countP (·.isComplete) = 1 ∧
    (streamChunksGo cur ws).getLast?.map (·.isComplete) = some true := by
  induction ws generalizing cur with
  | nil => exact absurd rfl h
  | cons w rest ih =>
    cases rest with
    | nil => simp [streamChunksGo, List.countP_cons]
    | cons w2 rest2 =>
      obtain ⟨ih1, ih2⟩ := ih (cur ++ w ++ [' ']) (by simp)
      have hexp : streamChunksGo cur (w :: w2 :: rest2) =
          ⟨cur ++ w ++ [' '], (w2 :: rest2).isEmpty⟩ ::
            streamChunksGo (cur ++ w ++ [' ']) (w2 :: rest2) := rfl
      have hexp2 : streamChunksGo (cur ++ w ++ [' ']) (w2 :: rest2) =
          ⟨cur ++ w ++ [' '] ++ w2 ++ [' '], rest2.isEmpty⟩ ::
            streamChunksGo (cur ++ w ++ [' '] ++ w2 ++ [' ']) rest2 := rfl
      constructor
      · rw [hexp, List.countP_cons, ih1]
        simp
      · rw [hexp2] at ih2
        rw [hexp, hexp2, List.getLast?_cons_cons]
        exact ih2

/-- C9: once the underlying generate call succeeds with text `content`,
the chunks are delivered in order with the i-th chunk's `content` equal to
the cumulative text so far (first `i + 1` words, each with its trailing
space), each successive chunk's content extends the previous one
(consecutive contents are prefixes), and exactly one chunk — the final
one — has `isComplete = true`. -/
theorem streamContent_chunk_contract (content : Str) :
    (streamChunks content).map (·.content) =
      specCumulativeContents (content.splitOn ' ') ∧
    List.Chain' (fun a b => a.content <+: b.content) (streamChunks content) ∧
    (streamChunks content).countP (·.isComplete) = 1 ∧
    (streamChunks content).getLast?.map (·.isComplete) = some true := by
  have hne : content.splitOn ' ' ≠ [] := by
    rw [List.splitOn]
    exact List.splitOnP_ne_nil _ _
  refine ⟨?_, ?_, ?_, ?_⟩
  · have h := streamChunksGo_contents [] (content.splitOn ' ')
    simpa [streamChunks, specCumulativeContents] using h
  · exact streamChunksGo_chain [] _
  · exact (streamChunksGo_one_complete [] _ hne).1
  · exact (streamChunksGo_one_complete [] _ hne).2

/-! ## Round trip of the chat-pair JSONL export (C6)

The decoding side models splitting the export on newlines and JSON-parsing
each line of the fixed chat-pair shape: `parseJsonString` is a standard
JSON string-literal parser (escape sequences per the JSON grammar;
unescaped control characters rejected), and `parseChatLine` parses one
`{"messages": [...]}` object of the shape `exportOpenAIFormat` emits,
extracting the two `content` fields. -/

/-- Value of a hexadecimal digit character, as a JSON parser reads
`\uXXXX` escapes. -/
def hexVal (c : Char) : Option Nat :=
  if '0' ≤ c ∧ c ≤ '9' then some (c.toNat - '0'.toNat)
  else if 'a' ≤ c ∧ c ≤ 'f' then some (c.toNat - 'a'.toNat + 10)
  else if 'A' ≤ c ∧ c ≤ 'F' then some (c.toNat - 'A'.toNat + 10)
  else none

/-- Parse the body of a JSON string literal (the part after the opening
quote) up to and including its closing quote, decoding escape sequences;
returns the decoded string and the remaining input.  Lean's `Char` cannot
hold lone surrogates, so a `\uXXXX` escape is decoded with `Char.ofNat`;
the chat-pair encoder only ever emits `\u00XX`. -/
def parseJsonString : Str → Option (Str × Str)
  | [] => none
  | c :: rest =>
    if c = '"' then some ([], rest)
    else if c = '\\' then
      match rest with
      | [] => none
      | e :: r =>
        if e = '"' then (parseJsonString r).map (fun p => ('"' :: p.1, p.2))
        else if e = '\\' then (parseJsonString r).map (fun p => ('\\' :: p.1, p.2))
        else if e = '/' then (parseJsonString r).map (fun p => ('/' :: p.1, p.2))
        else if e = 'b' then (parseJsonString r).map (fun p => ('\x08' :: p.1, p.2))
        else if e = 'f' then (parseJsonString r).map (fun p => ('\x0c' :: p.1, p.2))
        else if e = 'n' then (parseJsonString r).map (fun p => ('\n' :: p.1, p.2))
        else if e = 'r' then (parseJsonString r).map (fun p => ('\x0d' :: p.1, p.2))
        else if e = 't' then (parseJsonString r).map (fun p => ('\t' :: p.1, p.2))
        else if e = 'u' then
          match r with
          | h1 :: h2 :: h3 :: h4 :: rr =>
            match hexVal h1 with
            | none => none
            | some d1 =>
              match hexVal h2 with
              | none => none
              | some d2 =>
                match hexVal h3 with
                | none => none
                | some d3 =>
                  match hexVal h4 with
                  | none => none
                  | some d4 =>
                    (parseJsonString rr).map (fun p =>
                      (Char.ofNat (4096 * d1 + 256 * d2 + 16 * d3 + d4) :: p.1, p.2))
          | _ => none
        else none
    else if c.toNat < 32 then none
    else (parseJsonString rest).map (fun p => (c :: p.1, p.2))

/-- Consume an expected literal piece of the chat-pair object. -/
def stripLit (p l : Str) : Option Str :=
  if p.isPrefixOf l then some (l.drop p.length) else none

/-- JSON-parse one line of the chat-pair JSONL format, recovering the
`(input, output)` content pair of its two messages. -/
def parseChatLine (l : Str) : Option (Str × Str) := do
  let r1 ← stripLit "\x7b\"messages\":[\x7b\"role\":\"user\",\"content\":\"".data l
  let (inp, r2) ← parseJsonString r1
  let r3 ← stripLit "\x7d,\x7b\"role\":\"assistant\",\"content\":\"".data r2
  let (out, r4) ← parseJsonString r3
  if r4 = "\x7d]\x7d".data then some (inp, out) else none

/-- Split the export on newlines and JSON-parse each line. -/
def parseOpenAIExport (s : Str) : Option (List (Str × Str)) :=
  (s.splitOn '\n').mapM parseChatLine

theorem hexVal_hexDigitChar : ∀ n < 16, hexVal (hexDigitChar n) = some n := by decide

theorem stripLit_append (p t : Str) : stripLit p (p ++ t) = some t := by
  simp [stripLit, List.isPrefixOf_iff_prefix, List.prefix_append, List.drop_left]

/-- Parsing undoes the escaping of a single character. -/
theorem parseJsonString_escChar (c : Char) (tail : Str) :
    parseJsonString (escChar c ++ tail) =
      (parseJsonString tail).map (fun p => (c :: p.1, p.2)) := by
  unfold escChar
  split_ifs with h1 h2 h3 h4 h5 h6 h7 h8
  · subst h1; rw [List.cons_append, parseJsonString.eq_def]; simp
  · subst h2; rw [List.cons_append, parseJsonString.eq_def]; simp
  · subst h3; rw [List.cons_append, parseJsonString.eq_def]; simp
  · subst h4; rw [List.cons_append, parseJsonString.eq_def]; simp
  · subst h5; rw [List.cons_append, parseJsonString.eq_def]; simp
  · subst h6; rw [List.cons_append, parseJsonString.eq_def]; simp
  · subst h7; rw [List.cons_append, parseJsonString.eq_def]; simp
  · have hdiv : c.toNat / 16 < 16 := by omega
    have hmod : c.toNat % 16 < 16 := Nat.mod_lt _ (by norm_num)
    have h00 : hexVal '0' = some 0 := rfl
    rw [List.cons_append, parseJsonString.eq_def]
    simp [h00, hexVal_hexDigitChar _ hdiv, hexVal_hexDigitChar _ hmod]
    have hval : 16 * (c.toNat / 16) + c.toNat % 16 = c.toNat := Nat.div_add_mod _ _
    simp only [hval, Char.ofNat_toNat]
  · rw [List.singleton_append, parseJsonString.eq_def]
    simp [h1, h2, show ¬ c.toNat < 32 by omega]

/-- Parsing undoes the escaping of a whole string body followed by the
closing quote. -/
theorem parseJsonString_escStr (s rest : Str) :
    parseJsonString (escStr s ++ '"' :: rest) = some (s, rest) := by
  induction s with
  | nil =>
    rw [show escStr [] ++ '"' :: rest = '"' :: rest by simp [escStr], parseJsonString.eq_def]
    simp
  | cons c t ih =>
    rw [show escStr (c :: t) = escChar c ++ escStr t by simp [escStr], List.append_assoc,
      parseJsonString_escChar, ih]
    rfl

theorem chatLine_aligned (inp out : Str) :
    chatLine inp out =
      "\x7b\"messages\":[\x7b\"role\":\"user\",\"content\":\"".data ++
        (escStr inp ++ '"' :: ("\x7d,\x7b\"role\":\"assistant\",\"content\":\"".data ++
          (escStr out ++ '"' :: "\x7d]\x7d".data))) := by
  have h1 : "\x7b\"messages\":[\x7b\"role\":\"user\",\"content\":\"".data =
      "\x7b\"messages\":[\x7b\"role\":\"user\",\"content\":".data ++ ['"'] := by decide
  have h2 : "\x7d,\x7b\"role\":\"assistant\",\"content\":\"".data =
      "\x7d,\x7b\"role\":\"assistant\",\"content\":".data ++ ['"'] := by decide
  simp only [chatLine, quoteJson, h1, h2, List.append_assoc, List.cons_append,
    List.singleton_append, List.nil_append]

/-- JSON-parsing one emitted chat line recovers its two content fields. -/
theorem parseChatLine_chatLine (inp out : Str) :
    parseChatLine (chatLine inp out) = some (inp, out) := by
  rw [chatLine_aligned]
  simp only [parseChatLine, Option.bind_eq_bind, Option.some_bind, stripLit_append,
    parseJsonString_escStr]
  simp

theorem newline_not_mem_escChar (c : Char) : '\n' ∉ escChar c := by
  unfold escChar
  split_ifs with h1 h2 h3 h4 h5 h6 h7 h8
  · decide
  · decide
  · decide
  · decide
  · decide
  · decide
  · decide
  · intro hmem
    have hdiv : c.toNat / 16 < 16 := by omega
    have hmod : c.toNat % 16 < 16 := Nat.mod_lt _ (by norm_num)
    have hnothex : ∀ n < 16, hexDigitChar n ≠ '\n' := by decide
    simp only [List.mem_cons, List.not_mem_nil, or_false] at hmem
    rcases hmem with h | h | h | h | h | h <;>
      first
        | exact absurd h (by decide)
        | exact hnothex _ hdiv h.symm
        | exact hnothex _ hmod h.symm
  · intro hmem
    simp only [List.mem_singleton] at hmem
    subst hmem
    exact h5 rfl

theorem newline_not_mem_escStr (s : Str) : '\n' ∉ escStr s := by
  intro hmem
  simp only [escStr, List.mem_flatten, List.mem_map] at hmem
  obtain ⟨l, ⟨c, _, rfl⟩, hl⟩ := hmem
  exact newline_not_mem_escChar c hl

theorem newline_not_mem_chatLine (inp out : Str) : '\n' ∉ chatLine inp out := by
  intro hmem
  rw [chatLine_aligned] at hmem
  simp only [List.mem_append, List.mem_cons] at hmem
  rcases hmem with h | h | h | h | h | h
  · exact absurd h (by decide)
  · exact newline_not_mem_escStr inp h
  · exact absurd h (by decide)
  · exact absurd h (by decide)
  · exact newline_not_mem_escStr out h
  · exact absurd h (by decide)

theorem mapM_parseChatLine (pairs : List TrainingResultRec) :
    ((pairs.map (fun p => chatLine p.input_text p.output_text)).mapM parseChatLine) =
      some (pairs.map (fun p => (p.input_text, p.output_text))) := by
  induction pairs with
  | nil => rfl
  | cons p t ih =>
    rw [List.map_cons, List.mapM_cons, parseChatLine_chatLine, ih]
    rfl

/-- C6: for every non-empty list of pairs, encoding them in the chat-pair
JSONL format and then splitting the output on newlines and JSON-parsing
each line recovers exactly the original `(input, output)` pairs in the
same order. -/
theorem export_openai_roundtrip (pairs : List TrainingResultRec) (h : pairs ≠ []) :
    parseOpenAIExport (exportOpenAIFormat pairs) =
      some (pairs.map (fun p => (p.input_text, p.output_text))) := by
  unfold parseOpenAIExport exportOpenAIFormat
  rw [List.splitOn_intercalate _ '\n'
    (by
      intro l hl
      simp only [List.mem_map] at hl
      obtain ⟨p, _, rfl⟩ := hl
      exact newline_not_mem_chatLine _ _)
    (by simpa using h)]
  exact mapM_parseChatLine pairs

/-- Two pairs exercising quotes, backslashes, newlines and a control
character in their texts. -/
def rtRec1 : TrainingResultRec :=
  { id := "r1".data
    session_id := "s1".data
    input_text := "say \"hi\"\nplease".data
    output_text := "ok\\done".data
    quality_score := some 5
    tokens_used := some 3
    created_at := "t1".data }

def rtRec2 : TrainingResultRec :=
  { id := "r2".data
    session_id := "s1".data
    input_text := "tab\there".data
    output_text := ['b', 'e', 'l', Char.ofNat 7]
    quality_score := some 4
    tokens_used := some 4
    created_at := "t2".data }

/-- Witness for C6: the round trip at two concrete pairs containing
quotes, a backslash, a newline, a tab and a control character. -/
theorem export_openai_roundtrip_witness :
    parseOpenAIExport (exportOpenAIFormat [rtRec1, rtRec2]) =
      some ([rtRec1, rtRec2].map (fun p => (p.input_text, p.output_text))) :=
  export_openai_roundtrip [rtRec1, rtRec2] (by decide)

end LNT
